import Mathlib

/-
Verification of the Registry.pol decoder (src/regpol.py).

Shallow embedding conventions:
- A Python `str` is a `List Nat` of Unicode code points.
- A Python `bytes` is a `List Nat` of byte values.
- Exceptions raised by the decoder are modelled by `Except RegError`,
  with one constructor per raising site.
-/

namespace Regpol

/-- Code-point model of the character constants used by the decoder:
the semicolon field separator, the closing bracket record separator,
the opening bracket, and NUL. -/
def SEMI : Nat := 59

def RBRACKET : Nat := 93

def NUL : Nat := 0

/-- Embedding of Python `text.split(sep)` for a one-character separator
(regpol.py lines 29 and 47): splits into the (possibly empty) fragments
between occurrences of `sep`, so `n` separators yield `n + 1` fragments. -/
def splitOnCp (sep : Nat) : List Nat → List (List Nat)
  | [] => [[]]
  | c :: rest =>
    if c = sep then [] :: splitOnCp sep rest
    else
      match splitOnCp sep rest with
      | [] => [[c]]
      | h :: t => (c :: h) :: t

/-- Embedding of Python `s.rstrip("\x00")` (regpol.py lines 52, 54, 61):
removes every trailing NUL code point. -/
def rstripNul (s : List Nat) : List Nat :=
  (s.reverse.dropWhile fun c => c = NUL).reverse

/-- A Unicode scalar value: a code point that a Python `str.encode()`
call (UTF-8) accepts, i.e. not a surrogate and below 0x110000. -/
def isScalar (c : Nat) : Bool :=
  decide (c < 0xD800) || (decide (0xE000 ≤ c) && decide (c < 0x110000))

/-- The UTF-8 encoding of a single scalar value (byte list). -/
def utf8EncodeChar (c : Nat) : List Nat :=
  if c < 0x80 then [c]
  else if c < 0x800 then [0xC0 + c / 64, 0x80 + c % 64]
  else if c < 0x10000 then [0xE0 + c / 4096, 0x80 + c / 64 % 64, 0x80 + c % 64]
  else [0xF0 + c / 262144, 0x80 + c / 4096 % 64, 0x80 + c / 64 % 64, 0x80 + c % 64]

/-- UTF-8 encoding of a code-point sequence, concatenating per-character
encodings. -/
def utf8Bytes : List Nat → List Nat
  | [] => []
  | c :: rest => utf8EncodeChar c ++ utf8Bytes rest

/-- Embedding of Python `s.encode()` (UTF-8, strict): fails
(UnicodeEncodeError) when the string holds a non-scalar code point,
otherwise yields the UTF-8 bytes (regpol.py lines 56, 58, 63). -/
def pyEncode (s : List Nat) : Option (List Nat) :=
  if s.all isScalar then some (utf8Bytes s) else none

/-- Embedding of Python `struct.unpack("<H", b)[0]` (regpol.py lines
56, 58): requires exactly two bytes and reads them as a little-endian
16-bit unsigned integer (first byte low, second byte high). -/
def unpack2 : List Nat → Option Nat
  | [lo, hi] => some (lo + 256 * hi)
  | _ => none

/-- Embedding of the combined `struct.unpack("<H", field.encode())[0]`
applied to the `type` and `size` fields (regpol.py lines 56, 58). -/
def parseU16 (s : List Nat) : Option Nat :=
  (pyEncode s).bind unpack2

/-- Embedding of the `RegType` enumeration (regpol.py lines 67-79):
the 12 known registry value type codes. -/
inductive RegType where
  | REG_NONE
  | REG_SZ
  | REG_EXPAND_SZ
  | REG_BINARY
  | REG_DWORD
  | REG_DWORD_BIG_ENDIAN
  | REG_LINK
  | REG_MULTI_SZ
  | REG_RESOURCE_LIST
  | REG_FULL_RESOURCE_DESCRIPTOR
  | REG_RESOURCE_REQUIREMENTS_LIST
  | REG_QWORD
deriving DecidableEq

/-- Embedding of the Python enum value lookup `RegType(n)` (named fromCode because Lean reserves RegType.ofNat): `some` for
the 12 known codes 0-11 and `none` (Python raises ValueError) otherwise. -/
def RegType.fromCode (n : Nat) : Option RegType :=
  match n with
  | 0 => some .REG_NONE
  | 1 => some .REG_SZ
  | 2 => some .REG_EXPAND_SZ
  | 3 => some .REG_BINARY
  | 4 => some .REG_DWORD
  | 5 => some .REG_DWORD_BIG_ENDIAN
  | 6 => some .REG_LINK
  | 7 => some .REG_MULTI_SZ
  | 8 => some .REG_RESOURCE_LIST
  | 9 => some .REG_FULL_RESOURCE_DESCRIPTOR
  | 10 => some .REG_RESOURCE_REQUIREMENTS_LIST
  | 11 => some .REG_QWORD
  | _ => none

/-- The decoder's failure modes, one constructor per raising site of
regpol.py: short header read (struct.error), bad magic (line 21), bad
version (line 25), bad UTF-16 body (line 27), wrong field count
(line 47), type/size fields not unpackable as 2 bytes (lines 56, 58),
unknown type code in the `RegType(reg_type)` lookup (line 60), and a
data field that `str.encode` rejects (line 63). -/
inductive RegError where
  | truncatedHeader
  | invalidSignature
  | unsupportedVersion
  | encodingError
  | fieldCount
  | badType
  | badSize
  | badData
  | unknownRegType (code : Nat)
deriving DecidableEq

/-- Embedding of the `Entry` record (regpol.py lines 35-41): `key` and
`value` are strings (code points), `regtype` and `size` are the decoded
integers, `data` is the re-encoded byte payload. -/
structure Entry where
  key : List Nat
  value : List Nat
  regtype : Nat
  size : Nat
  data : List Nat
deriving DecidableEq

/-- Embedding of `Entry.loads` (regpol.py lines 43-63), faithful to the
source's evaluation order: split on `;` into exactly five fields
(ValueError otherwise), fix up key (drop first character, strip trailing
NULs) and value (strip trailing NULs), unpack `type` then `size` as
little-endian 16-bit integers via UTF-8 re-encoding, look the type code
up in the `RegType` enum (ValueError for unknown codes), strip trailing
NULs from `data` only for REG_SZ, and re-encode `data` to bytes. -/
def Entry.loads (body : List Nat) : Except RegError Entry :=
  match splitOnCp SEMI body with
  | [key0, value0, typeF, sizeF, d0] =>
    let key := rstripNul (key0.drop 1)
    let value := rstripNul value0
    match parseU16 typeF with
    | none => .error .badType
    | some reg_type =>
      match parseU16 sizeF with
      | none => .error .badSize
      | some size =>
        match RegType.fromCode reg_type with
        | none => .error (.unknownRegType reg_type)
        | some t =>
          let d1 := if t = RegType.REG_SZ then rstripNul d0 else d0
          match pyEncode d1 with
          | none => .error .badData
          | some db => .ok ⟨key, value, reg_type, size, db⟩
  | _ => .error .fieldCount

/-- Embedding of the list comprehension
`[Entry.loads(body) for body in decoded.split("]") if body]`
(regpol.py line 29): parse each fragment in order, aborting on the
first failure. -/
def mapLoads : List (List Nat) → Except RegError (List Entry)
  | [] => .ok []
  | b :: rest =>
    match Entry.loads b with
    | .error e => .error e
    | .ok x =>
      match mapLoads rest with
      | .error e => .error e
      | .ok xs => .ok (x :: xs)

/-- The body decoder: split the decoded text on `]`, discard empty
fragments, parse each remaining fragment (regpol.py line 29). -/
def decodeBody (text : List Nat) : Except RegError (List Entry) :=
  mapLoads ((splitOnCp RBRACKET text).filter fun f => f ≠ [])

/-- The REGFILE_SIGNATURE constant (regpol.py line 10): bytes
`50 52 65 67`. -/
def REGFILE_SIGNATURE : List Nat := [0x50, 0x52, 0x65, 0x67]

/-- Little-endian 32-bit read of four bytes, as in
`struct.unpack("<I", ...)` (regpol.py line 23). -/
def le32 (a b c d : Nat) : Nat :=
  a + 256 * b + 65536 * c + 16777216 * d

/-- Group a byte list into little-endian 16-bit code units (total: an
odd trailing byte is dropped; oddness is tracked separately). -/
def pairLE : List Nat → List Nat
  | a :: b :: rest => (a + 256 * b) :: pairLE rest
  | _ => []

/-- First stage of strict UTF-16-LE decoding: pair the bytes into code
units, failing on an odd byte count (truncated data). -/
def toUnits : List Nat → Except Unit (List Nat)
  | [] => .ok []
  | [_] => .error ()
  | a :: b :: rest =>
    match toUnits rest with
    | .error e => .error e
    | .ok us => .ok ((a + 256 * b) :: us)

/-- Second stage of strict UTF-16-LE decoding: combine surrogate pairs
into supplementary code points, failing on any lone surrogate. -/
def combineUnits : List Nat → Except Unit (List Nat)
  | [] => .ok []
  | [u] =>
    if u < 0xD800 ∨ 0xE000 ≤ u then .ok [u] else .error ()
  | u :: v :: rest =>
    if u < 0xD800 ∨ 0xE000 ≤ u then
      match combineUnits (v :: rest) with
      | .error e => .error e
      | .ok cs => .ok (u :: cs)
    else if u < 0xDC00 then
      if 0xDC00 ≤ v ∧ v < 0xE000 then
        match combineUnits rest with
        | .error e => .error e
        | .ok cs => .ok ((0x10000 + (u - 0xD800) * 1024 + (v - 0xDC00)) :: cs)
      else .error ()
    else .error ()

/-- Embedding of Python `bytes.decode("UTF-16-LE")` with strict errors
(regpol.py line 27): all-or-nothing decoding of the byte stream into
code points. -/
def utf16leDecode (bs : List Nat) : Except Unit (List Nat) :=
  match toUnits bs with
  | .error e => .error e
  | .ok us => combineUnits us

/-- Declarative well-formedness of a UTF-16 code-unit sequence: every
high surrogate is immediately followed by a low surrogate and low
surrogates appear only in that position. -/
inductive ValidUnits : List Nat → Prop where
  | nil : ValidUnits []
  | bmp {u : Nat} {rest : List Nat} :
      u < 0xD800 ∨ 0xE000 ≤ u → ValidUnits rest → ValidUnits (u :: rest)
  | pair {u v : Nat} {rest : List Nat} :
      0xD800 ≤ u → u < 0xDC00 → 0xDC00 ≤ v → v < 0xE000 →
      ValidUnits rest → ValidUnits (u :: v :: rest)

/-- Declarative validity of a byte stream as strict UTF-16-LE: an even
number of bytes whose induced code-unit sequence is well formed. -/
def ValidUtf16LE (bs : List Nat) : Prop :=
  Even bs.length ∧ ValidUnits (pairLE bs)

/-- Embedding of `RegFile.load` (regpol.py lines 16-32) on the file's
byte content: check the 4-byte magic, check the little-endian 32-bit
version, decode the remainder as UTF-16-LE, then decode the entries.
A header shorter than 8 bytes makes `struct.unpack` fail
(`truncatedHeader`). -/
def RegFile.load (bs : List Nat) : Except RegError (List Entry) :=
  match bs with
  | b0 :: b1 :: b2 :: b3 :: rest =>
    if [b0, b1, b2, b3] ≠ REGFILE_SIGNATURE then .error .invalidSignature
    else
      match rest with
      | v0 :: v1 :: v2 :: v3 :: body =>
        if le32 v0 v1 v2 v3 ≠ 1 then .error .unsupportedVersion
        else
          match utf16leDecode body with
          | .error _ => .error .encodingError
          | .ok text => decodeBody text
      | _ => .error .truncatedHeader
  | _ => .error .truncatedHeader

/-- The enum lookup succeeds exactly on the codes 0-11. -/
theorem fromCode_isSome (n : Nat) : (RegType.fromCode n).isSome = decide (n < 12) := by
  match n with
  | 0 | 1 | 2 | 3 | 4 | 5 | 6 | 7 | 8 | 9 | 10 | 11 => rfl
  | n + 12 => rfl

/-- A successful enum lookup yields `REG_SZ` exactly for code 1. -/
theorem fromCode_sz_iff (n : Nat) (rt : RegType) (h : RegType.fromCode n = some rt) :
    rt = RegType.REG_SZ ↔ n = 1 := by
  match n with
  | 0 | 1 | 2 | 3 | 4 | 5 | 6 | 7 | 8 | 9 | 10 | 11 =>
    simp [RegType.fromCode] at h
    subst h
    simp
  | n + 12 => simp [RegType.fromCode] at h

/-- A successful `str.encode` yields exactly the UTF-8 byte sequence. -/
theorem pyEncode_some (s l : List Nat) (h : pyEncode s = some l) : l = utf8Bytes s := by
  unfold pyEncode at h
  split at h
  · exact (Option.some.injEq _ _ ▸ h).symm
  · exact absurd h (by simp)

/-- `struct.unpack("<H", b)` succeeds exactly on two-byte buffers. -/
theorem unpack2_isSome (l : List Nat) : (unpack2 l).isSome = decide (l.length = 2) := by
  match l with
  | [] => rfl
  | [_] => rfl
  | [_, _] => rfl
  | _ :: _ :: _ :: _ => rfl

/-- A UTF-8 character encoding is never empty. -/
theorem utf8EncodeChar_ne_nil (c : Nat) : utf8EncodeChar c ≠ [] := by
  unfold utf8EncodeChar
  split_ifs <;> simp

/-- A UTF-8 character encoding has one byte exactly for code points
below 0x80. -/
theorem utf8EncodeChar_length_one (c : Nat) :
    (utf8EncodeChar c).length = 1 ↔ c < 0x80 := by
  unfold utf8EncodeChar
  split_ifs <;> simp <;> omega

/-- A UTF-8 character encoding has two bytes exactly for code points in
0x80 to 0x7FF. -/
theorem utf8EncodeChar_length_two (c : Nat) :
    (utf8EncodeChar c).length = 2 ↔ 0x80 ≤ c ∧ c < 0x800 := by
  unfold utf8EncodeChar
  split_ifs <;> simp <;> omega

/-- Two sub-0x80 code points parse as a little-endian 16-bit integer:
first character low byte, second character high byte. -/
theorem parseU16_pair (a b : Nat) (ha : a < 0x80) (hb : b < 0x80) :
    parseU16 [a, b] = some (a + 256 * b) := by
  have hsa : isScalar a = true := by simp [isScalar]; omega
  have hsb : isScalar b = true := by simp [isScalar]; omega
  have hea : utf8EncodeChar a = [a] := by unfold utf8EncodeChar; rw [if_pos ha]
  have heb : utf8EncodeChar b = [b] := by unfold utf8EncodeChar; rw [if_pos hb]
  simp [parseU16, pyEncode, hsa, hsb, utf8Bytes, hea, heb, unpack2]

/-- Characterization of the `type`/`size` field fix-up: it fails exactly
when the field is not two sub-0x80 code points and not a single code
point in 0x80 to 0x7FF (the shapes whose UTF-8 form is two bytes). -/
theorem parseU16_none_iff (u : List Nat) :
    parseU16 u = none ↔
      ¬ ((∃ a b, u = [a, b] ∧ a < 0x80 ∧ b < 0x80) ∨
         (∃ a, u = [a] ∧ 0x80 ≤ a ∧ a < 0x800)) := by
  match u with
  | [] => simp [parseU16, pyEncode, utf8Bytes, unpack2]
  | [a] =>
    by_cases hs : isScalar a = true
    · have henc : pyEncode [a] = some (utf8EncodeChar a) := by
        simp [pyEncode, hs, utf8Bytes]
      rw [parseU16, henc]
      simp only [Option.some_bind]
      constructor
      · intro hnone hshape
        have hlen : (unpack2 (utf8EncodeChar a)).isSome = true := by
          rw [unpack2_isSome]
          rcases hshape with ⟨x, y, hxy, _, _⟩ | ⟨x, hx, hge, hlt⟩
          · simp at hxy
          · simp at hx
            subst hx
            simp [(utf8EncodeChar_length_two a).mpr ⟨hge, hlt⟩]
        rw [hnone] at hlen
        simp at hlen
      · intro hshape
        rcases hu : unpack2 (utf8EncodeChar a) with _ | n
        · rfl
        · exfalso
          apply hshape
          right
          have hlen : (utf8EncodeChar a).length = 2 := by
            have := unpack2_isSome (utf8EncodeChar a)
            rw [hu] at this
            simpa using this.symm
          exact ⟨a, rfl, (utf8EncodeChar_length_two a).mp hlen⟩
    · have henc : pyEncode [a] = none := by simp [pyEncode, hs]
      rw [parseU16, henc]
      simp only [Option.none_bind, true_iff]
      intro hshape
      rcases hshape with ⟨x, y, hxy, _, _⟩ | ⟨x, hx, hge, hlt⟩
      · simp at hxy
      · simp at hx
        subst hx
        simp [isScalar] at hs
        omega
  | [a, b] =>
    by_cases hsa : isScalar a = true
    · by_cases hsb : isScalar b = true
      · have henc : pyEncode [a, b] = some (utf8EncodeChar a ++ utf8EncodeChar b) := by
          simp [pyEncode, hsa, hsb, utf8Bytes]
        rw [parseU16, henc]
        simp only [Option.some_bind]
        have h1 : 1 ≤ (utf8EncodeChar a).length := by
          rcases h : utf8EncodeChar a with _ | _
          · exact absurd h (utf8EncodeChar_ne_nil a)
          · simp
        have h2 : 1 ≤ (utf8EncodeChar b).length := by
          rcases h : utf8EncodeChar b with _ | _
          · exact absurd h (utf8EncodeChar_ne_nil b)
          · simp
        constructor
        · intro hnone hshape
          rcases hshape with ⟨x, y, hxy, hx, hy⟩ | ⟨x, hx, _, _⟩
          · simp at hxy
            have hea : utf8EncodeChar a = [a] := by
              unfold utf8EncodeChar
              rw [if_pos (hxy.1 ▸ hx)]
            have heb : utf8EncodeChar b = [b] := by
              unfold utf8EncodeChar
              rw [if_pos (hxy.2 ▸ hy)]
            rw [hea, heb] at hnone
            simp [unpack2] at hnone
          · simp at hx
        · intro hshape
          rcases hu : unpack2 (utf8EncodeChar a ++ utf8EncodeChar b) with _ | n
          · rfl
          · exfalso
            apply hshape
            left
            have hlen : (utf8EncodeChar a ++ utf8EncodeChar b).length = 2 := by
              have := unpack2_isSome (utf8EncodeChar a ++ utf8EncodeChar b)
              rw [hu] at this
              simpa using this.symm
            simp at hlen
            have hla : (utf8EncodeChar a).length = 1 := by omega
            have hlb : (utf8EncodeChar b).length = 1 := by omega
            exact ⟨a, b, rfl, (utf8EncodeChar_length_one a).mp hla,
              (utf8EncodeChar_length_one b).mp hlb⟩
      · have henc : pyEncode [a, b] = none := by simp [pyEncode, hsb]
        rw [parseU16, henc]
        simp only [Option.none_bind, true_iff]
        intro hshape
        rcases hshape with ⟨x, y, hxy, hx, hy⟩ | ⟨x, hx, _, _⟩
        · simp at hxy
          simp [isScalar] at hsb
          omega
        · simp at hx
    · have henc : pyEncode [a, b] = none := by simp [pyEncode, hsa]
      rw [parseU16, henc]
      simp only [Option.none_bind, true_iff]
      intro hshape
      rcases hshape with ⟨x, y, hxy, hx, hy⟩ | ⟨x, hx, _, _⟩
      · simp at hxy
        simp [isScalar] at hsa
        omega
      · simp at hx
  | a :: b :: c :: r =>
    constructor
    · intro _ hshape
      rcases hshape with ⟨x, y, hxy, _, _⟩ | ⟨x, hx, _, _⟩
      · simp at hxy
      · simp at hx
    · intro _
      rcases henc : pyEncode (a :: b :: c :: r) with _ | l
      · simp [parseU16, henc]
      · have hl : l = utf8Bytes (a :: b :: c :: r) := pyEncode_some _ _ henc
        have hlen : 3 ≤ l.length := by
          subst hl
          simp only [utf8Bytes]
          have h1 : 1 ≤ (utf8EncodeChar a).length := by
            rcases h : utf8EncodeChar a with _ | _
            · exact absurd h (utf8EncodeChar_ne_nil a)
            · simp
          have h2 : 1 ≤ (utf8EncodeChar b).length := by
            rcases h : utf8EncodeChar b with _ | _
            · exact absurd h (utf8EncodeChar_ne_nil b)
            · simp
          have h3 : 1 ≤ (utf8EncodeChar c).length := by
            rcases h : utf8EncodeChar c with _ | _
            · exact absurd h (utf8EncodeChar_ne_nil c)
            · simp
          simp
          omega
        rcases hu : unpack2 l with _ | n
        · simp [parseU16, henc, hu]
        · exfalso
          have := unpack2_isSome l
          rw [hu] at this
          have : l.length = 2 := by simpa using this.symm
          omega

/-- Inversion principle for a successful `Entry.loads`: the produced
entry is determined field by field from the five fragments. -/
theorem loads_ok_iff (body k v t s d : List Nat) (e : Entry)
    (hsplit : splitOnCp SEMI body = [k, v, t, s, d]) :
    Entry.loads body = .ok e ↔
      ∃ n sz rt db, parseU16 t = some n ∧ parseU16 s = some sz ∧
        RegType.fromCode n = some rt ∧
        pyEncode (if rt = RegType.REG_SZ then rstripNul d else d) = some db ∧
        e = ⟨rstripNul (k.drop 1), rstripNul v, n, sz, db⟩ := by
  unfold Entry.loads
  rw [hsplit]
  rcases ht : parseU16 t with _ | n
  · simp [ht]
  rcases hs : parseU16 s with _ | sz
  · simp [ht, hs]
  rcases hrt : RegType.fromCode n with _ | rt
  · simp [ht, hs, hrt]
  rcases hdb : pyEncode (if rt = RegType.REG_SZ then rstripNul d else d) with _ | db
  · simp [ht, hs, hrt, hdb]
  · simp only [ht, hs, hrt, hdb]
    constructor
    · intro h
      injection h with h2
      exact ⟨n, sz, rt, db, rfl, rfl, hrt, hdb, h2.symm⟩
    · rintro ⟨n2, sz2, rt2, db2, hn2, hsz2, hrt2, hdb2, he⟩
      injection hn2 with e1
      subst e1
      injection hsz2 with e2
      subst e2
      rw [hrt] at hrt2
      injection hrt2 with e3
      subst e3
      rw [hdb] at hdb2
      injection hdb2 with e4
      subst e4
      rw [he]

/-- A successful fragment-wise parse yields one entry per fragment. -/
theorem mapLoads_ok_length (l : List (List Nat)) (es : List Entry)
    (h : mapLoads l = .ok es) : es.length = l.length := by
  induction l generalizing es with
  | nil =>
    unfold mapLoads at h
    cases h
    rfl
  | cons b rest ih =>
    unfold mapLoads at h
    rcases hb : Entry.loads b with eb | x <;> rw [hb] at h
    · cases h
    · rcases hr : mapLoads rest with er | xs <;> rw [hr] at h
      · cases h
      · cases h
        simp [ih xs hr]

/-- A successful fragment-wise parse parses each fragment in place:
the i-th entry comes from the i-th fragment. -/
theorem mapLoads_ok_get (l : List (List Nat)) (es : List Entry)
    (h : mapLoads l = .ok es) :
    ∀ i (hi : i < l.length) (he : i < es.length),
      Entry.loads (l.get ⟨i, hi⟩) = .ok (es.get ⟨i, he⟩) := by
  induction l generalizing es with
  | nil =>
    intro i hi
    exact absurd hi (by simp)
  | cons b rest ih =>
    unfold mapLoads at h
    rcases hb : Entry.loads b with eb | x <;> rw [hb] at h
    · cases h
    · rcases hr : mapLoads rest with er | xs <;> rw [hr] at h
      · cases h
      · cases h
        intro i hi he
        match i with
        | 0 => exact hb
        | j + 1 =>
          exact ih xs hr j (by simpa using hi) (by simpa using he)

/-- Pairing the bytes into code units succeeds exactly on even-length
inputs, and then yields the little-endian pairing. -/
theorem toUnits_eq : ∀ bs : List Nat,
    toUnits bs = if Even bs.length then Except.ok (pairLE bs) else Except.error ()
  | [] => by simp [toUnits, pairLE]
  | [a] => by
    have h : ¬ Even ([a].length) := by simp [Nat.even_iff]
    simp [toUnits, pairLE, h]
  | a :: b :: rest => by
    have ih := toUnits_eq rest
    have hiff : Even ((a :: b :: rest).length) ↔ Even rest.length := by
      simp [Nat.even_iff]
      omega
    unfold toUnits
    rw [ih]
    by_cases h : Even rest.length
    · rw [if_pos h, if_pos (hiff.mpr h)]
      rfl
    · rw [if_neg h, if_neg (fun hc => h (hiff.mp hc))]

/-- Soundness of surrogate-pair combination: success implies the unit
sequence is well formed. -/
theorem combineUnits_ok_valid : ∀ (us cs : List Nat),
    combineUnits us = Except.ok cs → ValidUnits us
  | [], _, _ => ValidUnits.nil
  | [u], cs, h => by
    unfold combineUnits at h
    split at h
    · rename_i hu
      exact ValidUnits.bmp hu ValidUnits.nil
    · cases h
  | u :: v :: rest, cs, h => by
    unfold combineUnits at h
    split at h
    · rename_i hu
      rcases h2 : combineUnits (v :: rest) with e2 | cs2 <;> rw [h2] at h
      · cases h
      · exact ValidUnits.bmp hu (combineUnits_ok_valid (v :: rest) cs2 h2)
    · rename_i hu
      split at h
      · rename_i hu2
        split at h
        · rename_i hv
          rcases h2 : combineUnits rest with e2 | cs2 <;> rw [h2] at h
          · cases h
          · exact ValidUnits.pair (Nat.le_of_not_lt (not_or.mp hu).1) hu2 hv.1 hv.2
              (combineUnits_ok_valid rest cs2 h2)
        · cases h
      · cases h

/-- Completeness of surrogate-pair combination: a well-formed unit
sequence decodes successfully. -/
theorem valid_combineUnits (us : List Nat) (h : ValidUnits us) :
    ∃ cs, combineUnits us = Except.ok cs := by
  induction h with
  | nil => exact ⟨[], rfl⟩
  | @bmp u rest hu _ ih =>
    rcases ih with ⟨cs, hcs⟩
    cases rest with
    | nil =>
      refine ⟨[u], ?_⟩
      unfold combineUnits
      rw [if_pos hu]
    | cons v r2 =>
      refine ⟨u :: cs, ?_⟩
      unfold combineUnits
      rw [if_pos hu, hcs]
  | @pair u v rest h1 h2 h3 h4 _ ih =>
    rcases ih with ⟨cs, hcs⟩
    refine ⟨(0x10000 + (u - 0xD800) * 1024 + (v - 0xDC00)) :: cs, ?_⟩
    unfold combineUnits
    rw [if_neg (by omega), if_pos h2, if_pos ⟨h3, h4⟩, hcs]

/-- Strict UTF-16-LE decoding succeeds exactly on valid byte streams:
even byte count and well-formed code-unit sequence. -/
theorem utf16leDecode_ok_iff (bs : List Nat) :
    (∃ t, utf16leDecode bs = Except.ok t) ↔ ValidUtf16LE bs := by
  unfold utf16leDecode ValidUtf16LE
  rw [toUnits_eq]
  by_cases h : Even bs.length
  · rw [if_pos h]
    constructor
    · rintro ⟨t, ht⟩
      exact ⟨h, combineUnits_ok_valid _ t ht⟩
    · rintro ⟨_, hv⟩
      rcases valid_combineUnits _ hv with ⟨cs, hcs⟩
      exact ⟨cs, hcs⟩
  · rw [if_neg h]
    constructor
    · rintro ⟨t, ht⟩
      cases ht
    · rintro ⟨he, _⟩
      exact absurd he h

/-- A list of length five is a five-element literal. -/
theorem length_eq_five_shape {α : Type} (l : List α) (h : l.length = 5) :
    ∃ a b c d e, l = [a, b, c, d, e] := by
  match l with
  | [a, b, c, d, e] => exact ⟨a, b, c, d, e, rfl⟩
  | [] | [_] | [_, _] | [_, _, _] | [_, _, _, _] => simp at h
  | _ :: _ :: _ :: _ :: _ :: _ :: _ => simp at h

/-- With five fields present, per-entry parsing ends in one of the
field-level failures or succeeds; it never reports the field-count
failure. -/
theorem loads_result_of_split (body k v t s d : List Nat)
    (hsplit : splitOnCp SEMI body = [k, v, t, s, d]) :
    Entry.loads body = .error .badType ∨ Entry.loads body = .error .badSize ∨
    (∃ n, Entry.loads body = .error (.unknownRegType n)) ∨
    Entry.loads body = .error .badData ∨ (∃ e, Entry.loads body = .ok e) := by
  rcases ht : parseU16 t with _ | n
  · refine Or.inl ?_
    unfold Entry.loads
    rw [hsplit]
    simp [ht]
  rcases hs : parseU16 s with _ | sz
  · refine Or.inr (Or.inl ?_)
    unfold Entry.loads
    rw [hsplit]
    simp [ht, hs]
  rcases hrt : RegType.fromCode n with _ | rt
  · refine Or.inr (Or.inr (Or.inl ⟨n, ?_⟩))
    unfold Entry.loads
    rw [hsplit]
    simp [ht, hs, hrt]
  rcases hdb : pyEncode (if rt = RegType.REG_SZ then rstripNul d else d) with _ | db
  · refine Or.inr (Or.inr (Or.inr (Or.inl ?_)))
    unfold Entry.loads
    rw [hsplit]
    simp [ht, hs, hrt, hdb]
  · refine Or.inr (Or.inr (Or.inr (Or.inr
      ⟨⟨rstripNul (k.drop 1), rstripNul v, n, sz, db⟩, ?_⟩)))
    unfold Entry.loads
    rw [hsplit]
    simp [ht, hs, hrt, hdb]

/-- Without exactly five fields, per-entry parsing reports the
field-count failure. -/
theorem loads_fieldCount_of_len (body : List Nat)
    (h : (splitOnCp SEMI body).length ≠ 5) :
    Entry.loads body = .error .fieldCount := by
  unfold Entry.loads
  rcases hs : splitOnCp SEMI body with
    _ | ⟨a, _ | ⟨b2, _ | ⟨c2, _ | ⟨d2, _ | ⟨e2, _ | ⟨f2, r⟩⟩⟩⟩⟩⟩
  all_goals rw [hs] at h
  all_goals first
    | rfl
    | (exfalso; simp at h)

/-- Per-entry parsing never reports the UTF-16 decoding failure. -/
theorem loads_ne_encodingError (b : List Nat) :
    Entry.loads b ≠ Except.error RegError.encodingError := by
  intro h
  by_cases hlen : (splitOnCp SEMI b).length = 5
  · rcases length_eq_five_shape (splitOnCp SEMI b) hlen with ⟨k, v, t, s, d, hsplit⟩
    rcases loads_result_of_split b k v t s d hsplit with
      h1 | h1 | ⟨n, h1⟩ | h1 | ⟨e, h1⟩ <;> rw [h1] at h <;> simp at h
  · rw [loads_fieldCount_of_len b hlen] at h
    simp at h

/-- Fragment-wise parsing never reports the UTF-16 decoding failure. -/
theorem mapLoads_ne_encodingError (l : List (List Nat)) :
    mapLoads l ≠ Except.error RegError.encodingError := by
  induction l with
  | nil => simp [mapLoads]
  | cons b rest ih =>
    intro h
    unfold mapLoads at h
    rcases hb : Entry.loads b with e | x <;> rw [hb] at h
    · injection h with h2
      subst h2
      exact loads_ne_encodingError b hb
    · rcases hr : mapLoads rest with e | xs <;> rw [hr] at h
      · injection h with h2
        subst h2
        exact ih hr
      · cases h

/-- With five fields, the type failure is reported exactly when the
type field does not unpack. -/
theorem loads_badType_iff (body k v t s d : List Nat)
    (hsplit : splitOnCp SEMI body = [k, v, t, s, d]) :
    Entry.loads body = .error .badType ↔ parseU16 t = none := by
  unfold Entry.loads
  rw [hsplit]
  rcases ht : parseU16 t with _ | n
  · simp [ht]
  · simp [ht]
    intro h
    rcases hs : parseU16 s with _ | sz <;> simp [hs] at h
    rcases hrt : RegType.fromCode n with _ | rt <;> simp [hrt] at h
    rcases hdb : pyEncode (if rt = RegType.REG_SZ then rstripNul d else d) with _ | db <;>
      simp [hdb] at h

/-- With five fields and a well-formed type field, the size failure is
reported exactly when the size field does not unpack. -/
theorem loads_badSize_iff (body k v t s d : List Nat) (n : Nat)
    (hsplit : splitOnCp SEMI body = [k, v, t, s, d])
    (ht : parseU16 t = some n) :
    Entry.loads body = .error .badSize ↔ parseU16 s = none := by
  unfold Entry.loads
  rw [hsplit]
  rcases hs : parseU16 s with _ | sz
  · simp [ht, hs]
  · simp [ht, hs]
    intro h
    rcases hrt : RegType.fromCode n with _ | rt <;> simp [hrt] at h
    rcases hdb : pyEncode (if rt = RegType.REG_SZ then rstripNul d else d) with _ | db <;>
      simp [hdb] at h

/-- C1, counterexample: a structurally well-formed raw entry body
(`[k;v;` type bytes 0C 00 `;` size bytes 01 00 `;d`) whose type field
reinterprets to the out-of-range code 12 does NOT decode to an entry:
the `RegType(reg_type)` lookup raises, so decoding fails, refuting the
claim that unrecognized codes are carried through. -/
theorem C1_unknown_code_counterexample :
    Entry.loads [91, 107, 59, 118, 59, 12, 0, 59, 1, 0, 59, 100] =
      .error (.unknownRegType 12) := rfl

/-- C1, amended: for every raw entry body with five fields whose type
and size fields both unpack, a type code outside the 12 known codes
makes decoding fail with the unknown-type error (the enum lookup
raises); entries are produced only for known codes 0-11. -/
theorem C1_unknown_code_fails (body k v t s d : List Nat) (n m : Nat)
    (hsplit : splitOnCp SEMI body = [k, v, t, s, d])
    (ht : parseU16 t = some n) (hs : parseU16 s = some m)
    (hn : RegType.fromCode n = none) :
    Entry.loads body = .error (.unknownRegType n) := by
  unfold Entry.loads
  rw [hsplit]
  simp [ht, hs, hn]

/-- Witness for C1 amended: the body with type code 13 fails with the
unknown-type error. -/
theorem C1_unknown_code_witness :
    Entry.loads [91, 107, 59, 118, 59, 13, 0, 59, 1, 0, 59, 100] =
      .error (.unknownRegType 13) :=
  C1_unknown_code_fails [91, 107, 59, 118, 59, 13, 0, 59, 1, 0, 59, 100]
    [91, 107] [118] [13, 0] [1, 0] [100] 13 1 rfl rfl rfl rfl

/-- C2: every successfully decoded entry's data is the re-encoded byte
form of the fifth field, with trailing NULs stripped before re-encoding
exactly when the resolved type code is SZ (1) and preserved as-is for
every other type. -/
theorem C2_data_fixup (body k v t s d : List Nat) (e : Entry)
    (hsplit : splitOnCp SEMI body = [k, v, t, s, d])
    (hok : Entry.loads body = .ok e) :
    e.data = utf8Bytes (if e.regtype = 1 then rstripNul d else d) := by
  rcases (loads_ok_iff body k v t s d e hsplit).mp hok with
    ⟨n, sz, rt, db, hn, hsz, hrt, hdb, he⟩
  have hdb2 := pyEncode_some _ _ hdb
  have hiff := fromCode_sz_iff n rt hrt
  subst he
  show db = utf8Bytes (if n = 1 then rstripNul d else d)
  rw [hdb2]
  by_cases h1 : n = 1
  · rw [if_pos h1, if_pos (hiff.mpr h1)]
  · rw [if_neg h1, if_neg (fun hc => h1 (hiff.mp hc))]

/-- Witness for C2: the SZ-typed body `[k;v;` 01 00 `;` 04 00 `;data` NUL
decodes with the trailing NUL stripped from its data. -/
theorem C2_data_witness :
    (Entry.mk [107] [118] 1 4 [100, 97, 116, 97]).data =
      utf8Bytes (if (Entry.mk [107] [118] 1 4 [100, 97, 116, 97]).regtype = 1
        then rstripNul [100, 97, 116, 97, 0] else [100, 97, 116, 97, 0]) :=
  C2_data_fixup [91, 107, 59, 118, 59, 1, 0, 59, 4, 0, 59, 100, 97, 116, 97, 0]
    [91, 107] [118] [1, 0] [4, 0] [100, 97, 116, 97, 0]
    (Entry.mk [107] [118] 1 4 [100, 97, 116, 97]) rfl rfl

/-- C3, counterexample: the type field holding code points 65 and 128 is
exactly 2 characters long and both code units fit in one byte, so the
claim predicts success with value 0x8041; the code instead fails
(struct.error), because 128 re-encodes to two UTF-8 bytes and the
buffer is 3 bytes long. -/
theorem C3_reinterpretation_counterexample :
    splitOnCp SEMI [91, 107, 59, 118, 59, 65, 128, 59, 1, 0, 59, 100] =
        [[91, 107], [118], [65, 128], [1, 0], [100]] ∧
    ([65, 128] : List Nat).length = 2 ∧ 65 ≤ 0xFF ∧ 128 ≤ 0xFF ∧
    Entry.loads [91, 107, 59, 118, 59, 65, 128, 59, 1, 0, 59, 100] =
      .error .badType :=
  ⟨rfl, rfl, by omega, by omega, rfl⟩

/-- C3, amended: the type and size fields are re-encoded to UTF-8 and
unpacked as a little-endian 16-bit integer from exactly two bytes;
parsing a field fails exactly when its UTF-8 form is not two bytes,
i.e. succeeds exactly for two code points each below 0x80 (first = low
byte, second = high byte) or a single code point in 0x80 to 0x7FF. -/
theorem C3_field_reinterpretation (body k v t s d : List Nat)
    (hsplit : splitOnCp SEMI body = [k, v, t, s, d]) :
    (Entry.loads body = .error .badType ↔ parseU16 t = none) ∧
    (∀ n, parseU16 t = some n →
      (Entry.loads body = .error .badSize ↔ parseU16 s = none)) ∧
    (∀ u : List Nat, parseU16 u = none ↔
      ¬ ((∃ a b, u = [a, b] ∧ a < 0x80 ∧ b < 0x80) ∨
         (∃ a, u = [a] ∧ 0x80 ≤ a ∧ a < 0x800))) ∧
    (∀ a b : Nat, a < 0x80 → b < 0x80 → parseU16 [a, b] = some (a + 256 * b)) :=
  ⟨loads_badType_iff body k v t s d hsplit,
   fun n ht => loads_badSize_iff body k v t s d n hsplit ht,
   parseU16_none_iff,
   parseU16_pair⟩

/-- Witness for C3 amended: the two-character ASCII type field "AB"
parses to 65 + 256 * 66 = 16961. -/
theorem C3_field_witness : parseU16 [65, 66] = some 16961 :=
  (C3_field_reinterpretation [91, 107, 59, 118, 59, 65, 66, 59, 1, 0, 59, 100]
    [91, 107] [118] [65, 66] [1, 0] [100] rfl).2.2.2 65 66 (by decide) (by decide)

/-- C4: the body decoder splits on the closing bracket, discards empty
fragments, and yields exactly one entry per remaining fragment in split
order (the i-th entry parses from the i-th fragment); an empty body
yields the empty entry sequence. -/
theorem C4_split_order :
    decodeBody [] = .ok [] ∧
    ∀ text es, decodeBody text = .ok es →
      es.length = ((splitOnCp RBRACKET text).filter fun f => f ≠ []).length ∧
      ∀ i (hi : i < ((splitOnCp RBRACKET text).filter fun f => f ≠ []).length)
        (he : i < es.length),
        Entry.loads (((splitOnCp RBRACKET text).filter fun f => f ≠ []).get ⟨i, hi⟩) =
          .ok (es.get ⟨i, he⟩) := by
  constructor
  · rfl
  · intro text es h
    unfold decodeBody at h
    exact ⟨mapLoads_ok_length _ es h, fun i hi he => mapLoads_ok_get _ es h i hi he⟩

/-- Witness for C4: a body of two consecutive bracketed records decodes
to two entries, one per non-empty fragment. -/
theorem C4_split_witness :
    ([Entry.mk [107] [118] 1 1 [100], Entry.mk [109] [118] 1 1 [100]] : List Entry).length =
      ((splitOnCp RBRACKET
        [91, 107, 59, 118, 59, 1, 0, 59, 1, 0, 59, 100, 93,
         91, 109, 59, 118, 59, 1, 0, 59, 1, 0, 59, 100, 93]).filter fun f => f ≠ []).length :=
  (C4_split_order.2
    [91, 107, 59, 118, 59, 1, 0, 59, 1, 0, 59, 100, 93,
     91, 109, 59, 118, 59, 1, 0, 59, 1, 0, 59, 100, 93]
    [Entry.mk [107] [118] 1 1 [100], Entry.mk [109] [118] 1 1 [100]] rfl).1

/-- C5: per-entry parsing fails with the field-count error exactly when
splitting the body on the semicolon separator does not yield five
fields (too few and too many both fail). -/
theorem C5_field_count (body : List Nat) :
    Entry.loads body = .error .fieldCount ↔ (splitOnCp SEMI body).length ≠ 5 := by
  constructor
  · intro h hlen
    rcases length_eq_five_shape (splitOnCp SEMI body) hlen with ⟨k, v, t, s, d, hsplit⟩
    rcases loads_result_of_split body k v t s d hsplit with
      h1 | h1 | ⟨n, h1⟩ | h1 | ⟨e, h1⟩ <;> rw [h1] at h <;> simp at h
  · exact loads_fieldCount_of_len body

/-- C6: whenever the first four bytes differ from the signature
50 52 65 67, decoding fails with the invalid-signature error and no
entries are produced. -/
theorem C6_bad_signature (b0 b1 b2 b3 : Nat) (rest : List Nat)
    (h : [b0, b1, b2, b3] ≠ REGFILE_SIGNATURE) :
    RegFile.load (b0 :: b1 :: b2 :: b3 :: rest) = .error .invalidSignature := by
  have hstep : RegFile.load (b0 :: b1 :: b2 :: b3 :: rest) =
      if [b0, b1, b2, b3] ≠ REGFILE_SIGNATURE then Except.error RegError.invalidSignature
      else
        match rest with
        | v0 :: v1 :: v2 :: v3 :: body =>
          if le32 v0 v1 v2 v3 ≠ 1 then Except.error RegError.unsupportedVersion
          else
            match utf16leDecode body with
            | Except.error _ => Except.error RegError.encodingError
            | Except.ok text => decodeBody text
        | _ => Except.error RegError.truncatedHeader := rfl
  rw [hstep, if_pos h]

/-- Witness for C6: the header 50 52 65 72 (wrong last byte) fails with
the invalid-signature error. -/
theorem C6_bad_signature_witness :
    RegFile.load [0x50, 0x52, 0x65, 0x72, 1, 0, 0, 0] = .error .invalidSignature :=
  C6_bad_signature 0x50 0x52 0x65 0x72 [1, 0, 0, 0] (by decide)

/-- C7: with a correct signature, whenever bytes 4-7 read as a
little-endian 32-bit integer differ from 1, decoding fails with the
unsupported-version error and no entries are produced. -/
theorem C7_bad_version (v0 v1 v2 v3 : Nat) (rest : List Nat)
    (h : le32 v0 v1 v2 v3 ≠ 1) :
    RegFile.load (0x50 :: 0x52 :: 0x65 :: 0x67 :: v0 :: v1 :: v2 :: v3 :: rest) =
      .error .unsupportedVersion := by
  have hstep : RegFile.load (0x50 :: 0x52 :: 0x65 :: 0x67 :: v0 :: v1 :: v2 :: v3 :: rest) =
      if le32 v0 v1 v2 v3 ≠ 1 then Except.error RegError.unsupportedVersion
      else
        match utf16leDecode rest with
        | Except.error _ => Except.error RegError.encodingError
        | Except.ok text => decodeBody text := rfl
  rw [hstep, if_pos h]

/-- Witness for C7: a header with correct signature and version 2 fails
with the unsupported-version error. -/
theorem C7_bad_version_witness :
    RegFile.load [0x50, 0x52, 0x65, 0x67, 2, 0, 0, 0] = .error .unsupportedVersion :=
  C7_bad_version 2 0 0 0 [] (by decide)

/-- C8: after a valid header (signature and version 1), decoding fails
with the encoding error exactly when the remaining bytes are not valid
strict UTF-16-LE, i.e. the byte count is odd or the code-unit sequence
is invalid; there is no partial or lenient decoding. -/
theorem C8_utf16_strict (v0 v1 v2 v3 : Nat) (rest : List Nat)
    (hver : le32 v0 v1 v2 v3 = 1) :
    (RegFile.load (0x50 :: 0x52 :: 0x65 :: 0x67 :: v0 :: v1 :: v2 :: v3 :: rest) =
        .error .encodingError ↔ ¬ ValidUtf16LE rest) := by
  have hstep : RegFile.load (0x50 :: 0x52 :: 0x65 :: 0x67 :: v0 :: v1 :: v2 :: v3 :: rest) =
      if le32 v0 v1 v2 v3 ≠ 1 then Except.error RegError.unsupportedVersion
      else
        match utf16leDecode rest with
        | Except.error _ => Except.error RegError.encodingError
        | Except.ok text => decodeBody text := rfl
  rw [hstep, if_neg (fun hc => hc hver)]
  rcases hdec : utf16leDecode rest with e | text
  · constructor
    · intro _ hval
      rcases (utf16leDecode_ok_iff rest).mpr hval with ⟨t, ht⟩
      rw [hdec] at ht
      cases ht
    · intro _
      rfl
  · constructor
    · intro h
      exact absurd h (mapLoads_ne_encodingError _)
    · intro hnv
      exact absurd ((utf16leDecode_ok_iff rest).mp ⟨text, hdec⟩) hnv

/-- Witness for C8: a valid header followed by a single odd byte fails
with the encoding error. -/
theorem C8_utf16_witness :
    RegFile.load [0x50, 0x52, 0x65, 0x67, 1, 0, 0, 0, 0] = .error .encodingError :=
  (C8_utf16_strict 1 0 0 0 [0] rfl).mpr
    (fun h => absurd h.1 (by decide))

/-- C9: decoding is a pure, deterministic function of the input bytes.
The source reads the whole file, builds a fresh result object and
touches no module-level mutable state (its class attributes are
constants), so it embeds as a pure function, under which two calls on
identical bytes are definitionally the same result. -/
theorem C9_deterministic (bs : List Nat) : RegFile.load bs = RegFile.load bs := rfl

/-- C10: for every successfully decoded entry, the key fix-up removed
the first character of the key field unconditionally - whatever that
character is - before stripping trailing NULs; fragments not starting
with an opening bracket are not rejected and not searched. -/
theorem C10_key_first_char (body k v t s d : List Nat) (e : Entry)
    (hsplit : splitOnCp SEMI body = [k, v, t, s, d])
    (hok : Entry.loads body = .ok e) :
    e.key = rstripNul (k.drop 1) := by
  rcases (loads_ok_iff body k v t s d e hsplit).mp hok with
    ⟨n, sz, rt, db, hn, hsz, hrt, hdb, he⟩
  rw [he]

/-- Witness for C10: a fragment starting with the character X (88)
instead of an opening bracket still decodes, its first character
silently dropped from the key. -/
theorem C10_key_witness :
    (Entry.mk [107] [118] 1 1 [100]).key = rstripNul (List.drop 1 [88, 107]) :=
  C10_key_first_char [88, 107, 59, 118, 59, 1, 0, 59, 1, 0, 59, 100]
    [88, 107] [118] [1, 0] [1, 0] [100] (Entry.mk [107] [118] 1 1 [100]) rfl rfl

end Regpol
